import Mathlib

/-!
# Verification of the scrapify concurrency core

Shallow embedding of `scrapify.go` (package `scrapify`).  The engine walks a
pagination graph (`runScraper`, lines 102-126), dispatches discovered item
URLs as jobs (`getData`, lines 60-98) and synchronizes on a `sync.WaitGroup`
before closing its two channels (`Run`, lines 130-149).

The embedding has two layers:

* a canonical sequential execution (`walkSeq`, `extractJobs`, `runSeq`) that
  runs every spawned goroutine to completion in one legal schedule and keeps
  a ledger of every `wg.Add` / `wg.Done` in the `counter` field; and
* two small interleaving machines (`estep` for the per-URL extraction
  goroutines of `getData`, `wstep` for the `runScraper` walker goroutines)
  driven by an explicit schedule, used to exhibit concrete interleavings.
  Each machine step is one Go statement (or an atomic group of statements of
  a single goroutine between two scheduling points), so every schedule of the
  machine corresponds to a real interleaving of the goroutines.

The `scrapedUrls` map of the Go code is modelled as a `List String` with
membership; `markScraped` is the map insert `s.scrapedUrls[url] = true`.
-/

namespace Scrapify

/-- `s.scrapedUrls[url] = true`: insert a URL into the (set-valued) map. -/
def markScraped (u : String) (l : List String) : List String :=
  if u ∈ l then l else l ++ [u]

/-- The `IScraper[T]` interface (scrapify.go lines 11-17).  `GetUrls` returns
the item URLs of a page together with its next-page URLs.  `GetData` is the
caller's extraction; it either pushes one item onto the data channel
(`some item`) or produces nothing (`none`, a failed extraction). -/
structure IScraper where
  GetUrls : String → List String × List String
  GetData : String → Option String

/-- State threaded through the canonical sequential execution of `Run`:
the `scrapedUrls` map, the list of `GetUrls` invocations (`walked`, one entry
per call of `runScraper`), the jobs sent on the `jobs` channel, the
`sync.WaitGroup` counter (every `wg.Add(n)` is `+ n`, every `wg.Done()` is
`- 1`), and the items delivered to the user callback. -/
structure RunState where
  scrapedUrls : List String
  walked : List String
  jobs : List (List String)
  counter : Int
  callbacks : List String
deriving DecidableEq

/-- The `for _, newUrl := range nextPages` loop of `runScraper`
(lines 115-125): skip URLs already in `scrapedUrls` (line 116), otherwise
`wg.Add(1)` (line 120), mark (line 121) and collect the URL whose walk is
spawned (line 124).  Returns the new state and the list of spawned seeds. -/
def claimNexts : List String → RunState → RunState × List String
  | [], st => (st, [])
  | nu :: rest, st =>
    if nu ∈ st.scrapedUrls then claimNexts rest st
    else
      let st' : RunState :=
        { st with counter := st.counter + 1,
                  scrapedUrls := markScraped nu st.scrapedUrls }
      let p := claimNexts rest st'
      (p.1, nu :: p.2)

/-- Canonical (breadth-first, run-to-completion) execution of the walker
goroutines.  `pending` is the worklist of spawned `runScraper` invocations.
One step executes one full `runScraper` body (lines 102-126): `GetUrls`
(line 106), mark the page (line 107), `wg.Add(len(urls))` and `wg.Add(1)`
(lines 108-109), send the job (line 112), run the next-pages loop
(`claimNexts`), and finally the deferred `wg.Done()` (line 103).
`fuel` bounds the number of invocations; `none` means fuel ran out. -/
def walkSeq (sc : IScraper) : Nat → List String → RunState → Option RunState
  | _, [], st => some st
  | 0, _ :: _, _ => none
  | Nat.succ fuel, url :: pending, st =>
    let p := sc.GetUrls url
    let st1 : RunState :=
      { st with walked := st.walked ++ [url],
                scrapedUrls := markScraped url st.scrapedUrls,
                counter := st.counter + (p.1.length : Int) + 1,
                jobs := st.jobs ++ [p.1] }
    let q := claimNexts p.2 st1
    walkSeq sc fuel (pending ++ q.2) { q.1 with counter := q.1.counter - 1 }

/-- The items a call of `GetData` pushes onto the data channel (line 74):
one on success, none on a failed extraction. -/
def getDataEmits (sc : IScraper) (url : String) : List String :=
  match sc.GetData url with
  | some item => [item]
  | none => []

/-- Canonical sequential execution of the per-URL extraction goroutines
spawned by the job loop of `getData` (lines 63-83), one after the other,
over the concatenation of all job URL lists.  Each goroutine (lines 64-77):
skip if the URL is already in `scrapedUrls` (line 68), otherwise `GetData`
pushes the item to the channel — where the sink invokes the callback
(lines 93-95) — then the URL is marked (line 75); the deferred `wg.Done()`
(line 65) runs on every path. -/
def extractJobs (sc : IScraper) : List String → RunState → RunState
  | [], st => st
  | url :: rest, st =>
    if url ∈ st.scrapedUrls then
      extractJobs sc rest { st with counter := st.counter - 1 }
    else
      extractJobs sc rest
        { st with callbacks := st.callbacks ++ getDataEmits sc url,
                  scrapedUrls := markScraped url st.scrapedUrls,
                  counter := st.counter - 1 }

/-- Canonical complete execution of `Run` (lines 130-149) on a list of seed
URLs sharing one scraper: `wg.Add(len(strategy))` (line 132, the initial
`counter`), all walker goroutines run to completion, then all extraction
goroutines run to completion.  The resulting `counter` is the value of the
WaitGroup after every spawned goroutine has finished. -/
def runSeq (sc : IScraper) (seeds : List String) (fuel : Nat) : Option RunState :=
  match walkSeq sc fuel seeds
      { scrapedUrls := [], walked := [], jobs := [],
        counter := (seeds.length : Int), callbacks := [] } with
  | none => none
  | some st1 => some (extractJobs sc st1.jobs.flatten st1)

/-- Total number of item URLs over a list of jobs. -/
def jobsLen (js : List (List String)) : Nat := (js.map List.length).sum

/-- A scraper whose page is its own next page: the degenerate single
self-loop pagination graph of claim C1. -/
def selfLoopScraper : IScraper :=
  { GetUrls := fun _ => ([], ["p"]), GetData := fun u => some u }

/-- The scenario of claim C2: page `"p1"` lists items `{"a","b"}` and next
page `"p2"`; page `"p2"` lists items `{"b","c"}` and no next page. -/
def scenarioScraper : IScraper :=
  { GetUrls := fun u =>
      if u = "p1" then (["a", "b"], ["p2"])
      else if u = "p2" then (["b", "c"], [])
      else ([], []),
    GetData := fun u => some u }

/-- A diamond pagination graph: `"S"` links to `"A"` and `"B"`, which both
link to `"D"`. -/
def diamondScraper : IScraper :=
  { GetUrls := fun u =>
      if u = "S" then ([], ["A", "B"])
      else if u = "A" then ([], ["D"])
      else if u = "B" then ([], ["D"])
      else ([], []),
    GetData := fun u => some u }

/-- A page with one item and no pagination, used for the shared-seed
scenario of claim C8. -/
def sharedSeedScraper : IScraper :=
  { GetUrls := fun _ => (["i"], []), GetData := fun u => some u }

/-! ## Interleaving machine for the extraction goroutines of `getData` -/

/-- Program counter of one per-URL extraction goroutine (lines 64-77).
`checking` is just before the duplicate test of line 68; `sending` is after
the test passed, just before `GetData` (line 74), the mark (line 75) and the
deferred `Done` (line 65); `finishedE` is after the goroutine returned. -/
inductive EPhase
  | checking
  | sending
  | finishedE
deriving DecidableEq

/-- One extraction goroutine: its URL and its program counter. -/
structure ETask where
  url : String
  phase : EPhase
deriving DecidableEq

/-- Shared state of the extraction goroutines: the `scrapedUrls` map, the
items that reached the callback, the number of `wg.Done()` calls, and the
goroutines. -/
structure EState where
  scrapedUrls : List String
  emitted : List String
  dones : Nat
  tasks : List ETask
deriving DecidableEq

/-- Run one step of goroutine `i` (a no-op for an out-of-range index or a
finished goroutine).  A `checking` step executes the map read of line 68;
a `sending` step executes `GetData` (whose channel send rendezvouses with
the sink, which invokes the callback), the map write of line 75 and the
deferred `wg.Done()`.  The read of line 68 and the write of line 75 are
separate statements in the source, hence separate steps here. -/
def estep (st : EState) (i : Nat) : EState :=
  match st.tasks.get? i with
  | none => st
  | some t =>
    match t.phase with
    | EPhase.checking =>
      if t.url ∈ st.scrapedUrls then
        { st with tasks := st.tasks.set i { t with phase := EPhase.finishedE },
                  dones := st.dones + 1 }
      else
        { st with tasks := st.tasks.set i { t with phase := EPhase.sending } }
    | EPhase.sending =>
      { st with emitted := st.emitted ++ [t.url],
                scrapedUrls := markScraped t.url st.scrapedUrls,
                tasks := st.tasks.set i { t with phase := EPhase.finishedE },
                dones := st.dones + 1 }
    | EPhase.finishedE => st

/-- Run the extraction machine under an explicit schedule (a list of
goroutine indices, one per step). -/
def erun (st : EState) (sched : List Nat) : EState := sched.foldl estep st

/-- The per-URL goroutines spawned for a list of item URLs, all at the
duplicate check. -/
def mkETasks (urls : List String) : List ETask :=
  urls.map (fun u => { url := u, phase := EPhase.checking })

/-! ## Interleaving machine for the `runScraper` walker goroutines -/

/-- Program counter of one `runScraper` goroutine.  `start url` is just
before lines 106-112 (`GetUrls`, mark the page, `wg.Add`s, job send);
`scanNexts pending` is inside the loop of lines 115-125 with `pending`
still to process; `claimNextUrl nu rest` is after the check of line 116 saw
`nu` unvisited, just before lines 120-124 (`wg.Add(1)`, mark, spawn);
`finishedW` is after the deferred `wg.Done()`. -/
inductive WTask
  | start (url : String)
  | scanNexts (pending : List String)
  | claimNextUrl (nu : String) (pending : List String)
  | finishedW
deriving DecidableEq

/-- Shared state of the walker goroutines. -/
structure WState where
  scrapedUrls : List String
  walked : List String
  jobs : List (List String)
  tasks : List WTask
deriving DecidableEq

/-- Run one step of walker goroutine `i`.  A `start` step executes
lines 106-112 (the map write of line 107 follows the `GetUrls` call); a
`scanNexts` step executes the map read of line 116 for the head URL; a
`claimNextUrl` step executes lines 120-124, appending the spawned
`runScraper` goroutine.  The read of line 116 and the write of line 121 are
separate statements in the source, hence separate steps here. -/
def wstep (sc : IScraper) (st : WState) (i : Nat) : WState :=
  match st.tasks.get? i with
  | none => st
  | some t =>
    match t with
    | WTask.start url =>
      let p := sc.GetUrls url
      { st with walked := st.walked ++ [url],
                scrapedUrls := markScraped url st.scrapedUrls,
                jobs := st.jobs ++ [p.1],
                tasks := st.tasks.set i (WTask.scanNexts p.2) }
    | WTask.scanNexts [] =>
      { st with tasks := st.tasks.set i WTask.finishedW }
    | WTask.scanNexts (nu :: rest) =>
      if nu ∈ st.scrapedUrls then
        { st with tasks := st.tasks.set i (WTask.scanNexts rest) }
      else
        { st with tasks := st.tasks.set i (WTask.claimNextUrl nu rest) }
    | WTask.claimNextUrl nu rest =>
      { st with scrapedUrls := markScraped nu st.scrapedUrls,
                tasks := (st.tasks.set i (WTask.scanNexts rest)) ++ [WTask.start nu] }
    | WTask.finishedW => st

/-- Run the walker machine under an explicit schedule. -/
def wrun (sc : IScraper) (st : WState) (sched : List Nat) : WState :=
  sched.foldl (wstep sc) st

/-! ## The result sink of `getData` (lines 87-97) -/

/-- The `for data := range s.ch` loop (lines 93-95): it invokes the callback
for every arriving item until the channel is closed and never consults the
cancellation context — `ctxDone` is threaded through but unused, exactly as
in the source, where no statement of the loop body reads `ctx`.  `t` is the
iteration index (the instant at which the item is consumed). -/
def sinkConsume (ctxDone : Nat → Bool) : Nat → List String → List String
  | _, [] => []
  | t, item :: rest => item :: sinkConsume ctxDone (t + 1) rest

/-- The sink goroutine of `getData` (lines 87-97): a single `select` with a
`default` branch reads `ctx.Done()` once, at instant `0`, before entering
the consumption loop; if cancellation is already requested it returns,
otherwise it consumes every arrival. -/
def getDataSink (ctxDone : Nat → Bool) (arrivals : List String) : List String :=
  if ctxDone 0 then [] else sinkConsume ctxDone 1 arrivals

/-! ## One extraction goroutine in isolation (claim C6) -/

/-- Observable events of one per-URL extraction goroutine. -/
inductive ExtractEvent
  | doneSignal
  | skippedDuplicate
  | itemSent (item : String)
  | markedVisited
deriving DecidableEq

/-- The event trace of one extraction goroutine (lines 64-77) on each of its
paths: the URL is a duplicate (line 68), or `GetData` produces an item, or
`GetData` produces nothing (a failed extraction).  The deferred `wg.Done()`
(line 65) is the last event of every path. -/
def extractTask (scrapedUrls : List String) (url : String)
    (produced : Option String) : List ExtractEvent :=
  if url ∈ scrapedUrls then
    [ExtractEvent.skippedDuplicate, ExtractEvent.doneSignal]
  else
    (match produced with
      | some item => [ExtractEvent.itemSent item]
      | none => []) ++ [ExtractEvent.markedVisited, ExtractEvent.doneSignal]

/-- Number of `wg.Done()` signals in an extraction trace. -/
def countDone : List ExtractEvent → Nat
  | [] => 0
  | ExtractEvent.doneSignal :: rest => countDone rest + 1
  | _ :: rest => countDone rest

/-! ## The statement order of `Run` (lines 130-149) -/

/-- The statements of `Run`, in program order. -/
inductive RunEvent
  | addStrategies (n : Nat)
  | startDispatcher
  | startSink
  | spawnWalker (i : Nat)
  | waitReturn
  | closeJobs
  | closeCh
deriving DecidableEq

/-- The body of `Run` for `n` strategies, as the sequence of its statements:
`wg.Add(len(strategy))` (line 132), `getData` starting the dispatcher and
sink goroutines (line 135), one `go runScraper` per strategy (lines
138-141), `wg.Wait()` returning (line 144), `close(s.jobs)` (line 147) and
`close(s.ch)` (line 148). -/
def runBody (n : Nat) : List RunEvent :=
  ([RunEvent.addStrategies n, RunEvent.startDispatcher, RunEvent.startSink]
    ++ (List.range n).map RunEvent.spawnWalker)
  ++ [RunEvent.waitReturn, RunEvent.closeJobs, RunEvent.closeCh]

/-! ## The dispatch delay of `getData` (lines 63-82) -/

/-- Launch instants of the extraction goroutines of one job: the dispatcher
spawns the goroutine for each URL (line 64) and then sleeps for
`requestDelay` if it is positive (lines 80-82) before the next launch. -/
def launchTimes (requestDelay : Nat) : List String → Nat → List Nat
  | [], _ => []
  | _ :: rest, t =>
    t :: launchTimes requestDelay rest
      (if 0 < requestDelay then t + requestDelay else t)

/-! ## Helper lemmas -/

theorem jobsLen_append (js : List (List String)) (u : List String) :
    jobsLen (js ++ [u]) = jobsLen js + u.length := by
  simp [jobsLen]

theorem jobsLen_eq_flatten_length (js : List (List String)) :
    jobsLen js = js.flatten.length := by
  simp [jobsLen, List.length_flatten]

theorem claimNexts_spec (l : List String) (st : RunState) :
    (claimNexts l st).1.counter
        = st.counter + (((claimNexts l st).2.length : Nat) : Int) ∧
      (claimNexts l st).1.walked = st.walked ∧
      (claimNexts l st).1.jobs = st.jobs ∧
      (claimNexts l st).1.callbacks = st.callbacks := by
  induction l generalizing st with
  | nil => simp [claimNexts]
  | cons nu rest ih =>
    by_cases h : nu ∈ st.scrapedUrls
    · simpa [claimNexts, h] using ih st
    · have h' := ih { st with counter := st.counter + 1,
                              scrapedUrls := markScraped nu st.scrapedUrls }
      simp only [claimNexts, if_neg h] at h' ⊢
      refine ⟨?_, h'.2.1, h'.2.2.1, h'.2.2.2⟩
      rw [h'.1]
      simp only [List.length_cons]
      push_cast
      omega

theorem walkSeq_nil (sc : IScraper) (fuel : Nat) (st : RunState) :
    walkSeq sc fuel [] st = some st := by
  cases fuel <;> rfl

theorem walkSeq_ledger (sc : IScraper) :
    ∀ (fuel : Nat) (pending : List String) (st st' : RunState),
      walkSeq sc fuel pending st = some st' →
      st'.counter + (jobsLen st.jobs : Int) + (st.walked.length : Int)
          + (pending.length : Int)
        = st.counter + (jobsLen st'.jobs : Int) + (st'.walked.length : Int) := by
  intro fuel
  induction fuel with
  | zero =>
    intro pending st st' h
    cases pending with
    | nil =>
      rw [walkSeq_nil] at h
      cases h
      simp
    | cons u rest => simp [walkSeq] at h
  | succ n ih =>
    intro pending st st' h
    cases pending with
    | nil =>
      rw [walkSeq_nil] at h
      cases h
      simp
    | cons url rest =>
      simp only [walkSeq] at h
      have hc := claimNexts_spec (sc.GetUrls url).2
        { st with walked := st.walked ++ [url],
                  scrapedUrls := markScraped url st.scrapedUrls,
                  counter := st.counter + ((sc.GetUrls url).1.length : Int) + 1,
                  jobs := st.jobs ++ [(sc.GetUrls url).1] }
      have hrec := ih _ _ _ h
      rw [hc.2.1, hc.2.2.1] at hrec
      rw [hc.1] at hrec
      simp only [jobsLen_append, List.length_append, List.length_cons,
        List.length_nil] at hrec ⊢
      push_cast at hrec ⊢
      omega

theorem walkSeq_walks_pending (sc : IScraper) :
    ∀ (fuel : Nat) (pending : List String) (st st' : RunState),
      walkSeq sc fuel pending st = some st' →
      st.walked.length + pending.length ≤ st'.walked.length := by
  intro fuel
  induction fuel with
  | zero =>
    intro pending st st' h
    cases pending with
    | nil =>
      rw [walkSeq_nil] at h
      cases h
      simp
    | cons u rest => simp [walkSeq] at h
  | succ n ih =>
    intro pending st st' h
    cases pending with
    | nil =>
      rw [walkSeq_nil] at h
      cases h
      simp
    | cons url rest =>
      simp only [walkSeq] at h
      have hc := claimNexts_spec (sc.GetUrls url).2
        { st with walked := st.walked ++ [url],
                  scrapedUrls := markScraped url st.scrapedUrls,
                  counter := st.counter + ((sc.GetUrls url).1.length : Int) + 1,
                  jobs := st.jobs ++ [(sc.GetUrls url).1] }
      have hrec := ih _ _ _ h
      rw [hc.2.1] at hrec
      simp only [List.length_append, List.length_cons] at hrec ⊢
      omega

theorem extractJobs_spec (sc : IScraper) :
    ∀ (l : List String) (st : RunState),
      (extractJobs sc l st).counter = st.counter - (l.length : Int) ∧
        (extractJobs sc l st).walked = st.walked ∧
        (extractJobs sc l st).jobs = st.jobs := by
  intro l
  induction l with
  | nil => intro st; simp [extractJobs]
  | cons url rest ih =>
    intro st
    by_cases h : url ∈ st.scrapedUrls
    · have h' := ih { st with counter := st.counter - 1 }
      simp only [extractJobs, if_pos h]
      refine ⟨?_, h'.2.1, h'.2.2⟩
      rw [h'.1]
      simp only [List.length_cons]
      push_cast
      omega
    · have h' := ih
        { st with callbacks := st.callbacks ++ getDataEmits sc url,
                  scrapedUrls := markScraped url st.scrapedUrls,
                  counter := st.counter - 1 }
      simp only [extractJobs, if_neg h]
      refine ⟨?_, h'.2.1, h'.2.2⟩
      rw [h'.1]
      simp only [List.length_cons]
      push_cast
      omega

theorem runSeq_counter_eq_invocations (sc : IScraper) (seeds : List String)
    (fuel : Nat) (st' : RunState) (h : runSeq sc seeds fuel = some st') :
    st'.counter = (st'.walked.length : Int) ∧
      seeds.length ≤ st'.walked.length := by
  unfold runSeq at h
  cases hw : walkSeq sc fuel seeds
      { scrapedUrls := [], walked := [], jobs := [],
        counter := (seeds.length : Int), callbacks := [] } with
  | none => rw [hw] at h; cases h
  | some st1 =>
    rw [hw] at h
    have hl := walkSeq_ledger sc fuel seeds _ st1 hw
    have hp := walkSeq_walks_pending sc fuel seeds _ st1 hw
    have he := extractJobs_spec sc st1.jobs.flatten st1
    have hflat : (st1.jobs.flatten.length : Int) = (jobsLen st1.jobs : Int) := by
      rw [jobsLen_eq_flatten_length]
    cases h
    have hjn : jobsLen ([] : List (List String)) = 0 := rfl
    simp only [hjn, List.length_nil] at hl hp
    refine ⟨?_, ?_⟩
    · rw [he.1, he.2.1, hflat]
      omega
    · rw [he.2.1]
      omega

/-! ## Claim theorems -/

/-- C1: the claim that `Run` terminates for finite pagination graphs fails
on the code.  The `wg.Add(1)` of line 109 has no matching `wg.Done()`
anywhere: even after every spawned goroutine has run to completion (the
canonical complete execution `runSeq`), the WaitGroup counter equals the
number of `runScraper` invocations, which is at least the number of seed
strategies — so for any nonempty strategy list the counter never returns to
zero, `wg.Wait()` (line 144) blocks forever and `Run` never returns. -/
theorem c1_run_wait_counter_never_zero (sc : IScraper) (seeds : List String)
    (fuel : Nat) (st' : RunState) (h : runSeq sc seeds fuel = some st') :
    st'.counter = (st'.walked.length : Int) ∧
      seeds.length ≤ st'.walked.length ∧
      (seeds ≠ [] → 1 ≤ st'.counter) := by
  obtain ⟨h1, h2⟩ := runSeq_counter_eq_invocations sc seeds fuel st' h
  refine ⟨h1, h2, ?_⟩
  intro hne
  have hpos : 0 < seeds.length := List.length_pos.mpr hne
  rw [h1]
  omega

/-- Witness for C1 at the single self-loop strategy: after the complete
canonical run the WaitGroup counter is `1`, not `0`. -/
theorem c1_witness :
    runSeq selfLoopScraper ["p"] 2
        = some { scrapedUrls := ["p"], walked := ["p"], jobs := [[]],
                 counter := 1, callbacks := [] } ∧
      (1 : Int) ≤ ({ scrapedUrls := ["p"], walked := ["p"], jobs := [[]],
                     counter := 1, callbacks := [] } : RunState).counter := by
  have hrun : runSeq selfLoopScraper ["p"] 2
      = some { scrapedUrls := ["p"], walked := ["p"], jobs := [[]],
               counter := 1, callbacks := [] } := by decide
  exact ⟨hrun,
    (c1_run_wait_counter_never_zero selfLoopScraper ["p"] 2 _ hrun).2.2
      (by decide)⟩

/-- C2: the claim that the callback fires exactly once per unique item URL
fails on the code.  In the two-page scenario the walker produces the jobs
`[["a","b"], ["b","c"]]` (first two conjuncts, from the walker itself, with
the post-walk `scrapedUrls` map `["p1","p2"]`); the two extraction
goroutines for `"b"` then interleave — both execute the map read of line 68
before either executes the map write of line 75 — and the callback fires
twice for `"b"`. -/
theorem c2_callback_twice_for_shared_item :
    (walkSeq scenarioScraper 3 ["p1"]
          { scrapedUrls := [], walked := [], jobs := [],
            counter := ((["p1"] : List String).length : Int),
            callbacks := [] }).map RunState.scrapedUrls
        = some ["p1", "p2"] ∧
      (runSeq scenarioScraper ["p1"] 3).map RunState.jobs
        = some [["a", "b"], ["b", "c"]] ∧
      (erun { scrapedUrls := ["p1", "p2"], emitted := [], dones := 0,
              tasks := mkETasks (List.flatten [["a", "b"], ["b", "c"]]) }
            [0, 0, 1, 2, 1, 2, 3, 3]).emitted = ["a", "b", "b", "c"] ∧
      (["a", "b", "b", "c"] : List String).count "b" = 2 := by
  exact ⟨by decide, by decide, by decide, by decide⟩

/-- C3: the claim that the visited-set claim is an atomic check-then-insert
fails on the code.  `scrapedUrls` is a bare unguarded map and the check
(line 68) and insert (line 75) are separate statements: two goroutines
claiming the same URL `"x"` can both pass the check, so both claims succeed
and both extract, against the claim that exactly one succeeds. -/
theorem c3_concurrent_claims_both_succeed :
    (erun { scrapedUrls := [], emitted := [], dones := 0,
            tasks := mkETasks ["x", "x"] } [0, 1, 0, 1]).emitted
        = ["x", "x"] ∧
      (erun { scrapedUrls := [], emitted := [], dones := 0,
              tasks := mkETasks ["x", "x"] } [0, 1, 0, 1]).dones = 2 := by
  exact ⟨by decide, by decide⟩

/-- C4: the claim that the sink selects between a new item and cancellation
on every iteration fails on the code.  The sink goroutine (lines 87-97)
reads `ctx.Done()` once, in a `select` with a `default` branch, before
entering `for data := range s.ch`; with cancellation requested at every
instant after entry (`fun t => decide (0 < t)`) and two items queued, the
sink still delivers both items to the callback instead of stopping. -/
theorem c4_sink_checks_cancellation_only_once :
    getDataSink (fun t => decide (0 < t)) ["i1", "i2"] = ["i1", "i2"] ∧
      (fun t => decide (0 < t)) 1 = true := by
  exact ⟨by decide, by decide⟩

/-- C5: the claim that each reachable URL is visited at most once fails on
the code.  In the diamond graph S -> A, S -> B, A -> D, B -> D the two
walker goroutines for A and B can both execute the map read of line 116 for
D before either executes the map write of line 121, so both spawn a walk of
D and D is walked twice. -/
theorem c5_diamond_page_walked_twice :
    (wrun diamondScraper
        { scrapedUrls := [], walked := [], jobs := [],
          tasks := [WTask.start "S"] }
        [0, 0, 0, 0, 0, 1, 2, 1, 2, 1, 2, 3, 4]).walked
      = ["S", "A", "B", "D", "D"] ∧
    (["S", "A", "B", "D", "D"] : List String).count "D" = 2 := by
  exact ⟨by decide, by decide⟩

/-- C6: confirmed.  Every per-URL extraction goroutine of `getData`
(lines 64-77) signals `wg.Done()` exactly once, as its last action, on
every path: duplicate skip (line 68), successful extraction, and failed
extraction — the `defer s.wg.Done()` of line 65 runs on all of them. -/
theorem c6_extraction_task_done_exactly_once (scrapedUrls : List String)
    (url : String) (produced : Option String) :
    countDone (extractTask scrapedUrls url produced) = 1 ∧
      (extractTask scrapedUrls url produced).getLast?
        = some ExtractEvent.doneSignal := by
  unfold extractTask
  split
  · exact ⟨rfl, rfl⟩
  · cases produced <;> exact ⟨rfl, rfl⟩

/-- C7: confirmed.  In the body of `Run` (lines 130-149) the
`close(s.jobs)` (line 147) and `close(s.ch)` (line 148) statements come
after `wg.Wait()` returns (line 144) and nowhere else: the channels are
closed only after `Wait` has returned. -/
theorem c7_channels_closed_only_after_wait (n : Nat) :
    runBody n
        = ([RunEvent.addStrategies n, RunEvent.startDispatcher,
            RunEvent.startSink] ++ (List.range n).map RunEvent.spawnWalker)
          ++ [RunEvent.waitReturn, RunEvent.closeJobs, RunEvent.closeCh] ∧
      RunEvent.closeJobs ∉
        ([RunEvent.addStrategies n, RunEvent.startDispatcher,
          RunEvent.startSink] ++ (List.range n).map RunEvent.spawnWalker) ∧
      RunEvent.closeCh ∉
        ([RunEvent.addStrategies n, RunEvent.startDispatcher,
          RunEvent.startSink] ++ (List.range n).map RunEvent.spawnWalker) := by
  refine ⟨rfl, ?_, ?_⟩ <;> simp

/-- C8: the claim that a seed URL is marked visited synchronously before
any concurrent walker can race on it — so that two strategies sharing a
seed never both walk it — fails on the code.  `Run` spawns `runScraper`
without touching `scrapedUrls` (lines 138-141) and `runScraper` never
checks its own URL, marking it only after `GetUrls` returns (lines
106-107): with two strategies seeded at `"s"`, even running the two walker
goroutines one after the other (schedule `[0, 1]`, no interleaving at all),
the seed is walked twice and its items are submitted as two jobs. -/
theorem c8_shared_seed_walked_by_both_strategies :
    (wrun sharedSeedScraper
        { scrapedUrls := [], walked := [], jobs := [],
          tasks := [WTask.start "s", WTask.start "s"] } [0, 1]).walked
        = ["s", "s"] ∧
      (wrun sharedSeedScraper
          { scrapedUrls := [], walked := [], jobs := [],
            tasks := [WTask.start "s", WTask.start "s"] } [0, 1]).jobs
        = [["i"], ["i"]] := by
  exact ⟨by decide, by decide⟩

/-- The launch-time list has one instant per URL. -/
theorem launchTimes_length (d : Nat) :
    ∀ (urls : List String) (t : Nat),
      (launchTimes d urls t).length = urls.length := by
  intro urls
  induction urls with
  | nil => intro t; rfl
  | cons u rest ih => intro t; simp [launchTimes, ih]

/-- C9: confirmed.  With a positive `requestDelay` the dispatcher of
`getData` sleeps for the delay after launching each extraction goroutine
(lines 79-82), so any two consecutive launch instants within one job are at
least `requestDelay` apart.  Already-launched goroutines are separate tasks
and are not touched by the sleep. -/
theorem c9_inter_launch_gap (d t0 : Nat) (urls : List String) (hd : 0 < d) :
    List.Chain' (fun a b => a + d ≤ b) (launchTimes d urls t0) := by
  induction urls generalizing t0 with
  | nil => simp [launchTimes]
  | cons u rest ih =>
    have hstep : launchTimes d (u :: rest) t0
        = t0 :: launchTimes d rest (t0 + d) := by
      simp [launchTimes, if_pos hd]
    rw [hstep, List.chain'_cons']
    refine ⟨?_, ih (t0 + d)⟩
    intro y hy
    cases rest with
    | nil => simp [launchTimes] at hy
    | cons v rest' =>
      have : y = t0 + d := by
        simp [launchTimes] at hy
        omega
      omega

/-- Witness for C9: with `requestDelay = 2` and three item URLs the launch
instants are `0`, `2`, `4`, each pair at least two units apart. -/
theorem c9_witness :
    (0 : Nat) < 2 ∧
      launchTimes 2 ["u1", "u2", "u3"] 0 = [0, 2, 4] ∧
      List.Chain' (fun a b => a + 2 ≤ b) (launchTimes 2 ["u1", "u2", "u3"] 0) :=
  ⟨by decide, by decide,
    c9_inter_launch_gap 2 0 ["u1", "u2", "u3"] (by decide)⟩

/-- C10: confirmed.  With an empty strategy list the canonical execution of
`Run` completes with the WaitGroup counter at `0` (so `wg.Wait()` returns at
once and the channels are closed, see `runBody`), no page is ever fetched,
no job is ever sent and the callback is never invoked. -/
theorem c10_empty_strategies_run_returns (sc : IScraper) (fuel : Nat) :
    runSeq sc [] fuel
      = some { scrapedUrls := [], walked := [], jobs := [],
               counter := 0, callbacks := [] } := by
  unfold runSeq
  rw [walkSeq_nil]
  rfl

end Scrapify
